import Mathlib

/-!
Verification development for the `logging` Go package (adzr/logging).

The package provides `CreateStdSyncLogger`, which builds a
`multiAppenderInstrumentedLogger`: a routing logger that scans each log
entry's key/value sequence for the go-kit severity key, increments a
metrics counter per severity, and dispatches the entry to one of two
appenders (stderr for errors, a level-filtered stdout appender for the
rest), appending a trailing `("logger", name)` pair.

We embed the routing/instrumentation logic shallowly:
  - entries are lists of `GoValue` (the severity key, severity values,
    and opaque other values);
  - the scan loop of `multiAppenderInstrumentedLogger.Log` is
    `scanKeyvals`, with the out-of-bounds slice access of the Go loop
    made explicit as `ScanOutcome.indexOutOfRange`;
  - side effects (counter increments, stream writes) are collected in
    the result value `LogResult`;
  - the process-wide shared-writer registry (`sync.Once` plus nil
    checks) is a state machine on `WriterState`.
-/

/-- Model of go-kit `level.Value`: the four recognized severity levels
plus custom implementations of the `level.Value` interface (such as the
`customLevelValue` used in the package's tests). -/
inductive LevelValue where
  | error : LevelValue
  | warn : LevelValue
  | info : LevelValue
  | debug : LevelValue
  | custom : String → LevelValue
deriving DecidableEq

/-- `level.Value.String()`: the severity's textual name. -/
def levelValueString : LevelValue → String
  | LevelValue.error => "error"
  | LevelValue.warn => "warn"
  | LevelValue.info => "info"
  | LevelValue.debug => "debug"
  | LevelValue.custom s => s

/-- Whether a `level.Value` is one of the four recognized severities
(for which `CreateStdSyncLogger` registers a destination). -/
def LevelValue.recognized : LevelValue → Bool
  | LevelValue.custom _ => false
  | _ => true

/-- An element of a Go `keyvals ...interface{}` sequence: the reserved
severity key `level.Key()`, a severity value implementing `level.Value`,
or any other (opaque) value, modelled by a string payload. -/
inductive GoValue where
  | levelKey : GoValue
  | levelVal : LevelValue → GoValue
  | str : String → GoValue
deriving DecidableEq

/-- Outcome of the key-scanning loop in
`multiAppenderInstrumentedLogger.Log`. -/
inductive ScanOutcome where
  | found : LevelValue → ScanOutcome
  | notFound : ScanOutcome
  | indexOutOfRange : ScanOutcome
deriving DecidableEq

/-- The scan loop of `multiAppenderInstrumentedLogger.Log`:
`for i := 0; i < len(keyvals); i += 2 { if keyvals[i] == level.Key() {
if v, ok := keyvals[i+1].(level.Value); ok { ... } ; break } }`.
Visits even indices; on the first index holding the severity key, the
Go code reads `keyvals[i+1]` before any bounds check, so a sequence of
odd length whose last element is the severity key triggers an
index-out-of-range runtime panic, made explicit here; if the paired
value does not implement `level.Value`, the loop breaks without a
severity (`notFound`). -/
def scanKeyvals : List GoValue → ScanOutcome
  | [] => ScanOutcome.notFound
  | [k] =>
    if k = GoValue.levelKey then ScanOutcome.indexOutOfRange
    else ScanOutcome.notFound
  | k :: v :: rest =>
    if k = GoValue.levelKey then
      match v with
      | GoValue.levelVal lv => ScanOutcome.found lv
      | _ => ScanOutcome.notFound
    else scanKeyvals rest

/-- What a destination appender does with a forwarded entry: which
records it writes to the stdout sink and the stderr sink, and the error
value it returns. -/
structure DestOut where
  outWrites : List (List GoValue)
  errWrites : List (List GoValue)
  ret : Option String
deriving DecidableEq

/-- A destination logger (an entry in the `loggers` map): a function
from the forwarded entry to its effects and returned error. -/
def Dest : Type := List GoValue → DestOut

/-- Result of one `Log` call: either a runtime panic (index out of
range), or normal completion carrying the counter labels incremented,
the records written to each sink, and the returned error value
(`none` = nil). -/
inductive LogResult where
  | indexOutOfRange : LogResult
  | ok : List String → List (List GoValue) → List (List GoValue) → Option String → LogResult
deriving DecidableEq

/-- Counter labels incremented by a `Log` call. -/
def LogResult.counts : LogResult → List String
  | LogResult.ok c _ _ _ => c
  | LogResult.indexOutOfRange => []

/-- Records written to the stdout sink by a `Log` call. -/
def LogResult.outWrites : LogResult → List (List GoValue)
  | LogResult.ok _ o _ _ => o
  | LogResult.indexOutOfRange => []

/-- Records written to the stderr sink by a `Log` call. -/
def LogResult.errWrites : LogResult → List (List GoValue)
  | LogResult.ok _ _ e _ => e
  | LogResult.indexOutOfRange => []

/-- The error value returned by a `Log` call (`none` = nil). -/
def LogResult.ret : LogResult → Option String
  | LogResult.ok _ _ _ r => r
  | LogResult.indexOutOfRange => none

/-- `multiAppenderInstrumentedLogger.Log`: scan for the severity key;
if no recognized `level.Value` is paired with it, return nil with no
side effects; otherwise increment the counter (when present) with the
severity's textual name, look up the destination for the severity
(`loggers` may be nil, and the map lookup may miss), and if one exists
append the trailing `("logger", name)` pair and forward, returning the
destination's result verbatim. -/
def multiAppenderLog (loggers : Option (LevelValue → Option Dest)) (hasCounter : Bool)
    (name : String) (keyvals : List GoValue) : LogResult :=
  match scanKeyvals keyvals with
  | ScanOutcome.indexOutOfRange => LogResult.indexOutOfRange
  | ScanOutcome.notFound => LogResult.ok [] [] [] none
  | ScanOutcome.found v =>
    let counts := if hasCounter then [levelValueString v] else []
    match loggers with
    | none => LogResult.ok counts [] [] none
    | some m =>
      match m v with
      | none => LogResult.ok counts [] [] none
      | some d =>
        let fin := keyvals ++ [GoValue.str "logger", GoValue.str name]
        let o := d fin
        LogResult.ok counts o.outWrites o.errWrites o.ret

/-- Go `strings.TrimSpace`: drop leading and trailing whitespace. -/
def goTrimSpace (s : String) : String :=
  String.mk (((s.data.dropWhile Char.isWhitespace).reverse.dropWhile
    Char.isWhitespace).reverse)

/-- Go `strings.ToLower`: lowercase every character. -/
def goToLower (s : String) : String := String.mk (s.data.map Char.toLower)

/-- Go `strings.ToLower(strings.TrimSpace(l))`, as used by
`isLevelNone`, `getValidLevel` and `createLoggerFactory`. -/
def goTrimLower (s : String) : String := goToLower (goTrimSpace s)

/-- `Config`: the logging configuration value object. -/
structure Config where
  format : String
  level : String
deriving DecidableEq

/-- `Configuration()`: the default configuration. -/
def Configuration : Config := { format := "json", level := "info" }

/-- `isLevelNone`: whether the logger is configured to log nothing. -/
def isLevelNone (l : String) : Bool := goTrimLower l == "none"

/-- Model of a go-kit `level.Option` as returned by `getValidLevel`:
one of `level.AllowError()`, `level.AllowWarn()`, `level.AllowInfo()`,
`level.AllowDebug()`, `level.AllowAll()`. -/
inductive Allow where
  | allowError : Allow
  | allowWarn : Allow
  | allowInfo : Allow
  | allowDebug : Allow
  | allowAll : Allow
deriving DecidableEq

/-- `getValidLevel`: maps the trimmed, lowercased level string to a
filter option, defaulting to allow-all for unrecognized strings. -/
def getValidLevel (l : String) : Allow :=
  match goTrimLower l with
  | "error" => Allow.allowError
  | "warn" => Allow.allowWarn
  | "info" => Allow.allowInfo
  | "debug" => Allow.allowDebug
  | _ => Allow.allowAll

/-- Rank of a recognized severity in the total order
Debug < Info < Warn < Error; custom severity values have no rank. -/
def sevRank : LevelValue → Option Nat
  | LevelValue.debug => some 0
  | LevelValue.info => some 1
  | LevelValue.warn => some 2
  | LevelValue.error => some 3
  | LevelValue.custom _ => none

/-- Minimum severity rank admitted by each filter option; per the
spec's resolution table, allow-all coincides with allow-debug-and-above
(every recognized severity passes). -/
def allowThreshold : Allow → Nat
  | Allow.allowError => 3
  | Allow.allowWarn => 2
  | Allow.allowInfo => 1
  | Allow.allowDebug => 0
  | Allow.allowAll => 0

/-- Modelled from the spec: the external Level Filter collaborator
(go-kit `level.NewFilter`, not part of this repository) admits exactly
the entries whose severity is at or above the configured minimum;
values outside the recognized enumeration are not admitted. -/
def allowedLevel (a : Allow) (v : LevelValue) : Bool :=
  match sevRank v with
  | some r => decide (allowThreshold a ≤ r)
  | none => false

/-- Model of a logger factory returned by `createLoggerFactory`; the
source switch has only a default case, always yielding
`log.NewJSONLogger`. -/
inductive LoggerFactory where
  | jsonLogger : LoggerFactory
deriving DecidableEq

/-- `createLoggerFactory`: format-type string to encoder factory; every
branch of the source switch returns the JSON factory. -/
def createLoggerFactory (loggerType : String) : LoggerFactory :=
  match goTrimLower loggerType with
  | _ => LoggerFactory.jsonLogger

/-- The error-stream appender: the stderr encoder, never wrapped in a
level filter; writes the forwarded record to the stderr sink and
returns nil (the external encoder's write is modelled as succeeding). -/
def errStreamDest : Dest := fun kv =>
  { outWrites := [], errWrites := [kv], ret := none }

/-- Modelled from the spec: the standard-stream appender, the stdout
encoder wrapped in the external Level Filter collaborator with the
resolved option; it suppresses (returning nil, writing nothing) any
forwarded entry whose severity is below the configured minimum, and
writes admitted entries to the stdout sink. Entries without a severity
pass through unfiltered (the filter is not configured to squelch
no-level entries). -/
def filteredOutDest (a : Allow) : Dest := fun kv =>
  match scanKeyvals kv with
  | ScanOutcome.found v =>
    if allowedLevel a v then { outWrites := [kv], errWrites := [], ret := none }
    else { outWrites := [], errWrites := [], ret := none }
  | _ => { outWrites := [kv], errWrites := [], ret := none }

/-- The destination map built by `CreateStdSyncLogger`: Error maps to
the stderr appender; Warn, Info and Debug map to the filtered stdout
appender; nothing is registered for other severity values. -/
def stdDestMap (a : Allow) : LevelValue → Option Dest
  | LevelValue.error => some errStreamDest
  | LevelValue.warn => some (filteredOutDest a)
  | LevelValue.info => some (filteredOutDest a)
  | LevelValue.debug => some (filteredOutDest a)
  | LevelValue.custom _ => none

/-- The process-wide shared writer registry: the one-time guard
(`sync.Once`), the two lazily created sink slots, and a supply of fresh
sink identities (each `log.NewSyncWriter` call yields a new object). -/
structure WriterState where
  onceDone : Bool
  stdoutW : Option Nat
  stderrW : Option Nat
  nextId : Nat
deriving DecidableEq

/-- One nil-checked sink slot: create a fresh sink object only when
the slot is nil, otherwise keep the existing sink. -/
def createWriterSlot (slot : Option Nat) (nextId : Nat) : Option Nat × Nat :=
  match slot with
  | none => (some nextId, nextId + 1)
  | some w => (some w, nextId)

/-- The writer-creation step of `createSyncStdLoggers`: under the
one-time guard, create the stdout sink only if its slot is nil, then
the stderr sink only if its slot is nil. -/
def createWritersOnce (s : WriterState) : WriterState :=
  if s.onceDone then s
  else
    let p1 := createWriterSlot s.stdoutW s.nextId
    let p2 := createWriterSlot s.stderrW p1.2
    { onceDone := true, stdoutW := p1.1, stderrW := p2.1, nextId := p2.2 }

/-- `createSyncStdLoggers`: runs the one-time writer creation; the two
returned appenders are determined by the (shared) writers and the
factory, so only the state transition is recorded here. -/
def createSyncStdLoggers (_f : LoggerFactory) (s : WriterState) : WriterState :=
  createWritersOnce s

/-- The logger value returned by `CreateStdSyncLogger`: either the
no-op logger (level "none") or a `multiAppenderInstrumentedLogger`
holding the logical name, counter presence, the chosen encoder factory
and the resolved filter option (which together determine its
destination map `stdDestMap`). -/
inductive StdLogger where
  | nop : StdLogger
  | multi : String → Bool → LoggerFactory → Allow → StdLogger
deriving DecidableEq

/-- `CreateStdSyncLogger`: if the configured level is "none", return
the no-op logger before any writer or filter is created (the registry
state is untouched); otherwise resolve the level, create the shared
writers once, and return the routing logger. -/
def CreateStdSyncLogger (loggerName : String) (hasCounter : Bool) (config : Config)
    (s : WriterState) : StdLogger × WriterState :=
  if isLevelNone config.level then (StdLogger.nop, s)
  else
    let lvl := getValidLevel config.level
    let s' := createSyncStdLoggers (createLoggerFactory config.format) s
    (StdLogger.multi loggerName hasCounter (createLoggerFactory config.format) lvl, s')

/-- One `Log` call on a logger returned by `CreateStdSyncLogger`: the
no-op logger returns nil with no effects; the routing logger runs
`multiAppenderInstrumentedLogger.Log` over its destination map. -/
def stdLoggerLog : StdLogger → List GoValue → LogResult
  | StdLogger.nop, _ => LogResult.ok [] [] [] none
  | StdLogger.multi name hc _f a, kv => multiAppenderLog (some (stdDestMap a)) hc name kv

theorem scanKeyvals_append_of_found (extra : List GoValue) (w : LevelValue) :
    ∀ kv : List GoValue, scanKeyvals kv = ScanOutcome.found w →
      scanKeyvals (kv ++ extra) = ScanOutcome.found w
  | [], h => by simp [scanKeyvals] at h
  | [k], h => by
    by_cases hk : k = GoValue.levelKey <;> simp [scanKeyvals, hk] at h
  | k :: v :: rest, h => by
    by_cases hk : k = GoValue.levelKey
    · cases v <;> simp_all [scanKeyvals, hk]
    · have hrest : scanKeyvals rest = ScanOutcome.found w := by
        simpa [scanKeyvals, hk] using h
      have := scanKeyvals_append_of_found extra w rest hrest
      simpa [scanKeyvals, hk] using this

theorem scanKeyvals_of_not_mem :
    ∀ kv : List GoValue, GoValue.levelKey ∉ kv → scanKeyvals kv = ScanOutcome.notFound
  | [], _ => rfl
  | [k], h => by
    have hk : k ≠ GoValue.levelKey := by simp at h; exact fun he => h he.symm
    simp [scanKeyvals, hk]
  | k :: v :: rest, h => by
    have hk : k ≠ GoValue.levelKey := fun he => h (by simp [he])
    have hrest : GoValue.levelKey ∉ rest := fun hm => h (by simp [hm])
    simp [scanKeyvals, hk, scanKeyvals_of_not_mem rest hrest]

/-- C1: for every configured minimum level (other than "none") and every
entry carrying a recognized severity S, `Log` writes the entry to the
stdout destination iff S is admitted by the filter (S at or above the
minimum) and S is not Error, and writes an Error entry to the stderr
destination regardless of the configured level (the error destination is
never wrapped in the level filter). -/
theorem log_routes_by_severity (a : Allow) (name : String) (hc : Bool) (f : LoggerFactory)
    (kv : List GoValue) (S : LevelValue)
    (hS : scanKeyvals kv = ScanOutcome.found S) (hrec : S.recognized = true) :
    (LogResult.outWrites (stdLoggerLog (StdLogger.multi name hc f a) kv)
        = [kv ++ [GoValue.str "logger", GoValue.str name]]
      ↔ (allowedLevel a S = true ∧ S ≠ LevelValue.error))
    ∧ (LogResult.errWrites (stdLoggerLog (StdLogger.multi name hc f a) kv)
        = [kv ++ [GoValue.str "logger", GoValue.str name]]
      ↔ S = LevelValue.error) := by
  have hfin := scanKeyvals_append_of_found [GoValue.str "logger", GoValue.str name] S kv hS
  cases S with
  | custom s => simp [LevelValue.recognized] at hrec
  | error =>
    simp [stdLoggerLog, multiAppenderLog, hS, stdDestMap, errStreamDest,
      LogResult.outWrites, LogResult.errWrites]
  | warn =>
    by_cases hal : allowedLevel a LevelValue.warn = true
    · simp [stdLoggerLog, multiAppenderLog, hS, stdDestMap, filteredOutDest, hfin, hal,
        LogResult.outWrites, LogResult.errWrites]
    · simp [stdLoggerLog, multiAppenderLog, hS, stdDestMap, filteredOutDest, hfin, hal,
        LogResult.outWrites, LogResult.errWrites]
  | info =>
    by_cases hal : allowedLevel a LevelValue.info = true
    · simp [stdLoggerLog, multiAppenderLog, hS, stdDestMap, filteredOutDest, hfin, hal,
        LogResult.outWrites, LogResult.errWrites]
    · simp [stdLoggerLog, multiAppenderLog, hS, stdDestMap, filteredOutDest, hfin, hal,
        LogResult.outWrites, LogResult.errWrites]
  | debug =>
    by_cases hal : allowedLevel a LevelValue.debug = true
    · simp [stdLoggerLog, multiAppenderLog, hS, stdDestMap, filteredOutDest, hfin, hal,
        LogResult.outWrites, LogResult.errWrites]
    · simp [stdLoggerLog, multiAppenderLog, hS, stdDestMap, filteredOutDest, hfin, hal,
        LogResult.outWrites, LogResult.errWrites]

theorem log_routes_by_severity_witness :
    scanKeyvals [GoValue.levelKey, GoValue.levelVal LevelValue.info]
        = ScanOutcome.found LevelValue.info
    ∧ ((LogResult.outWrites (stdLoggerLog
          (StdLogger.multi "svc" true LoggerFactory.jsonLogger Allow.allowWarn)
          [GoValue.levelKey, GoValue.levelVal LevelValue.info])
        = [[GoValue.levelKey, GoValue.levelVal LevelValue.info]
            ++ [GoValue.str "logger", GoValue.str "svc"]]
      ↔ (allowedLevel Allow.allowWarn LevelValue.info = true
          ∧ LevelValue.info ≠ LevelValue.error))
    ∧ (LogResult.errWrites (stdLoggerLog
          (StdLogger.multi "svc" true LoggerFactory.jsonLogger Allow.allowWarn)
          [GoValue.levelKey, GoValue.levelVal LevelValue.info])
        = [[GoValue.levelKey, GoValue.levelVal LevelValue.info]
            ++ [GoValue.str "logger", GoValue.str "svc"]]
      ↔ LevelValue.info = LevelValue.error)) :=
  ⟨by decide,
    log_routes_by_severity Allow.allowWarn "svc" true LoggerFactory.jsonLogger
      [GoValue.levelKey, GoValue.levelVal LevelValue.info] LevelValue.info
      (by decide) (by decide)⟩

/-- C2: an entry whose key/value sequence contains no reserved severity
key, or whose scan yields no recognized `level.Value` paired with the
severity key, makes `Log` return nil immediately with no side effects:
no counter increment and no write to either stream, whatever the
destination map and counter. -/
theorem log_drops_unleveled (loggers : Option (LevelValue → Option Dest)) (hc : Bool)
    (name : String) (kv : List GoValue)
    (h : GoValue.levelKey ∉ kv ∨ scanKeyvals kv = ScanOutcome.notFound) :
    multiAppenderLog loggers hc name kv = LogResult.ok [] [] [] none := by
  have hnf : scanKeyvals kv = ScanOutcome.notFound := by
    cases h with
    | inl h => exact scanKeyvals_of_not_mem kv h
    | inr h => exact h
  simp [multiAppenderLog, hnf]

/-- A destination that records the entry it receives and returns an
error, used to witness forwarding behaviour. -/
def probeDest : Dest := fun kv =>
  { outWrites := [kv], errWrites := [], ret := some "boom" }

theorem log_drops_unleveled_witness :
    multiAppenderLog (some fun _ => some probeDest) true "svc"
        [GoValue.str "msg", GoValue.str "hello"]
      = LogResult.ok [] [] [] none :=
  log_drops_unleveled (some fun _ => some probeDest) true "svc"
    [GoValue.str "msg", GoValue.str "hello"] (Or.inl (by decide))

/-- C3: claims `Log` never panics; but on a key/value sequence of odd
length whose last element is the reserved severity key, the scan loop
reads one element past the end of the sequence (`keyvals[i+1]` with
`i+1 = len(keyvals)`), an index-out-of-range runtime fault, for every
destination map, counter setting and logger name. -/
theorem log_trailing_severity_key_out_of_range
    (loggers : Option (LevelValue → Option Dest)) (hc : Bool) (name : String) :
    multiAppenderLog loggers hc name [GoValue.levelKey]
      = LogResult.indexOutOfRange := by
  simp [multiAppenderLog, scanKeyvals]

/-- C4: for every configuration whose level string equals "none" after
trimming and lowercasing, `CreateStdSyncLogger` returns the no-op
logger with the registry state untouched (no writer or filter created),
and the no-op logger's `Log` returns nil on every input, writing
nothing and counting nothing. -/
theorem create_level_none_noop (loggerName : String) (hc : Bool) (config : Config)
    (s : WriterState) (h : goTrimLower config.level = "none") :
    CreateStdSyncLogger loggerName hc config s = (StdLogger.nop, s)
    ∧ ∀ kv : List GoValue, stdLoggerLog StdLogger.nop kv = LogResult.ok [] [] [] none := by
  constructor
  · simp [CreateStdSyncLogger, isLevelNone, h]
  · intro kv
    rfl

theorem create_level_none_noop_witness :
    CreateStdSyncLogger "svc" true { format := "json", level := " None " }
        { onceDone := false, stdoutW := none, stderrW := none, nextId := 0 }
      = (StdLogger.nop, { onceDone := false, stdoutW := none, stderrW := none, nextId := 0 })
    ∧ stdLoggerLog StdLogger.nop [GoValue.levelKey] = LogResult.ok [] [] [] none := by
  have h := create_level_none_noop "svc" true { format := "json", level := " None " }
    { onceDone := false, stdoutW := none, stderrW := none, nextId := 0 } (by decide)
  exact ⟨h.1, h.2 [GoValue.levelKey]⟩

theorem allowedLevel_allowAll_eq_allowDebug :
    allowedLevel Allow.allowAll = allowedLevel Allow.allowDebug := by
  funext v
  cases v <;> rfl

theorem filteredOutDest_allowAll_eq_allowDebug :
    filteredOutDest Allow.allowAll = filteredOutDest Allow.allowDebug := by
  funext kv
  unfold filteredOutDest
  rw [allowedLevel_allowAll_eq_allowDebug]

theorem stdDestMap_allowAll_eq_allowDebug :
    stdDestMap Allow.allowAll = stdDestMap Allow.allowDebug := by
  funext v
  cases v <;> simp [stdDestMap, filteredOutDest_allowAll_eq_allowDebug]

/-- C5: every level string that is not (case-insensitively, after
trimming) one of "none", "error", "warn", "info", "debug" resolves to
allow-all, and a logger constructed with such a string behaves
identically to one constructed with level "debug": same registry state
transition and the same `Log` result on every input. -/
theorem invalid_level_behaves_as_debug (l : String) (loggerName : String) (hc : Bool)
    (fmt : String) (s : WriterState) (kv : List GoValue)
    (h : goTrimLower l ∉ (["none", "error", "warn", "info", "debug"] : List String)) :
    getValidLevel l = Allow.allowAll
    ∧ (CreateStdSyncLogger loggerName hc { format := fmt, level := l } s).2
        = (CreateStdSyncLogger loggerName hc { format := fmt, level := "debug" } s).2
    ∧ stdLoggerLog (CreateStdSyncLogger loggerName hc { format := fmt, level := l } s).1 kv
        = stdLoggerLog
            (CreateStdSyncLogger loggerName hc { format := fmt, level := "debug" } s).1 kv := by
  simp only [List.mem_cons, List.not_mem_nil, or_false, not_or] at h
  obtain ⟨hnone, herr, hwarn, hinfo, hdebug⟩ := h
  have hget : getValidLevel l = Allow.allowAll := by
    unfold getValidLevel
    split <;> simp_all
  have hnonel : isLevelNone l = false := by
    simp [isLevelNone, hnone]
  have hnoned : isLevelNone "debug" = false := by decide
  have hgetd : getValidLevel "debug" = Allow.allowDebug := by decide
  refine ⟨hget, ?_, ?_⟩
  · simp [CreateStdSyncLogger, hnonel, hnoned]
  · simp only [CreateStdSyncLogger, hnonel, hnoned, Bool.false_eq_true, if_false,
      hget, hgetd]
    simp [stdLoggerLog, stdDestMap_allowAll_eq_allowDebug]

theorem invalid_level_behaves_as_debug_witness :
    getValidLevel "invalid-garbage" = Allow.allowAll
    ∧ (CreateStdSyncLogger "svc" true { format := "json", level := "invalid-garbage" }
          { onceDone := false, stdoutW := none, stderrW := none, nextId := 0 }).2
        = (CreateStdSyncLogger "svc" true { format := "json", level := "debug" }
          { onceDone := false, stdoutW := none, stderrW := none, nextId := 0 }).2
    ∧ stdLoggerLog
        (CreateStdSyncLogger "svc" true { format := "json", level := "invalid-garbage" }
          { onceDone := false, stdoutW := none, stderrW := none, nextId := 0 }).1
        [GoValue.levelKey, GoValue.levelVal LevelValue.debug]
        = stdLoggerLog
            (CreateStdSyncLogger "svc" true { format := "json", level := "debug" }
              { onceDone := false, stdoutW := none, stderrW := none, nextId := 0 }).1
            [GoValue.levelKey, GoValue.levelVal LevelValue.debug] :=
  invalid_level_behaves_as_debug "invalid-garbage" "svc" true "json"
    { onceDone := false, stdoutW := none, stderrW := none, nextId := 0 }
    [GoValue.levelKey, GoValue.levelVal LevelValue.debug] (by decide)

/-- C6: for every entry whose scan finds a severity value, a logger
holding a counter increments it exactly once with label equal to the
severity's textual name, whatever the destination map — in particular
even when no destination logger is registered for that severity. -/
theorem log_increments_counter_once (loggers : Option (LevelValue → Option Dest))
    (name : String) (kv : List GoValue) (v : LevelValue)
    (h : scanKeyvals kv = ScanOutcome.found v) :
    LogResult.counts (multiAppenderLog loggers true name kv) = [levelValueString v] := by
  cases loggers with
  | none => simp [multiAppenderLog, h, LogResult.counts]
  | some m =>
    cases hm : m v <;> simp [multiAppenderLog, h, hm, LogResult.counts]

theorem log_increments_counter_once_witness :
    LogResult.counts (multiAppenderLog (some fun _ => none) true "svc"
        [GoValue.levelKey, GoValue.levelVal (LevelValue.custom "invalid")])
      = ["invalid"] :=
  log_increments_counter_once (some fun _ => none) "svc"
    [GoValue.levelKey, GoValue.levelVal (LevelValue.custom "invalid")]
    (LevelValue.custom "invalid") (by decide)

/-- C7: every entry routed to a registered destination is forwarded
with exactly one additional trailing pair `("logger", name)` appended
after all caller-supplied pairs, and `Log` returns the destination's
result verbatim (its writes and its returned error value). -/
theorem log_appends_logger_name_and_forwards (m : LevelValue → Option Dest) (d : Dest)
    (hc : Bool) (name : String) (kv : List GoValue) (v : LevelValue)
    (hscan : scanKeyvals kv = ScanOutcome.found v) (hdest : m v = some d) :
    multiAppenderLog (some m) hc name kv
      = LogResult.ok (if hc then [levelValueString v] else [])
          (d (kv ++ [GoValue.str "logger", GoValue.str name])).outWrites
          (d (kv ++ [GoValue.str "logger", GoValue.str name])).errWrites
          (d (kv ++ [GoValue.str "logger", GoValue.str name])).ret := by
  simp [multiAppenderLog, hscan, hdest]

theorem log_appends_logger_name_and_forwards_witness :
    multiAppenderLog (some fun _ => some probeDest) true "svc"
        [GoValue.levelKey, GoValue.levelVal LevelValue.warn, GoValue.str "k", GoValue.str "v"]
      = LogResult.ok ["warn"]
          [[GoValue.levelKey, GoValue.levelVal LevelValue.warn, GoValue.str "k",
            GoValue.str "v", GoValue.str "logger", GoValue.str "svc"]]
          [] (some "boom") :=
  (log_appends_logger_name_and_forwards (fun _ => some probeDest) probeDest true "svc"
    [GoValue.levelKey, GoValue.levelVal LevelValue.warn, GoValue.str "k", GoValue.str "v"]
    LevelValue.warn (by decide) rfl).trans rfl

theorem createWritersOnce_onceDone (s : WriterState) :
    (createWritersOnce s).onceDone = true := by
  cases hd : s.onceDone <;> simp [createWritersOnce, hd]

theorem createWritersOnce_stdout_preserved (s : WriterState) (w : Nat)
    (h : s.stdoutW = some w) : (createWritersOnce s).stdoutW = some w := by
  cases hd : s.onceDone <;> simp [createWritersOnce, createWriterSlot, hd, h]

theorem createWritersOnce_stderr_preserved (s : WriterState) (w : Nat)
    (h : s.stderrW = some w) : (createWritersOnce s).stderrW = some w := by
  cases hd : s.onceDone <;> simp [createWritersOnce, createWriterSlot, hd, h]

theorem createWritersOnce_of_onceDone (s : WriterState) (h : s.onceDone = true) :
    createWritersOnce s = s := by
  simp [createWritersOnce, h]

theorem createWritersOnce_idem (s : WriterState) :
    createWritersOnce (createWritersOnce s) = createWritersOnce s :=
  createWritersOnce_of_onceDone _ (createWritersOnce_onceDone s)

/-- C8: the shared writer registry creates at most one sink per
physical stream: an already-created sink is never reassigned by a
later registry pass, repeating the one-time creation any number of
times yields exactly the state of the first pass, and a second
`CreateStdSyncLogger` construction (with any configuration) observes
exactly the sink instances the first (non-"none") construction
created. -/
theorem shared_writers_single_instance (s : WriterState) :
    (∀ w : Nat, s.stdoutW = some w → (createWritersOnce s).stdoutW = some w)
    ∧ (∀ w : Nat, s.stderrW = some w → (createWritersOnce s).stderrW = some w)
    ∧ (∀ k : Nat, createWritersOnce^[k + 1] s = createWritersOnce s)
    ∧ (∀ (n1 n2 : String) (h1 h2 : Bool) (c1 c2 : Config),
        isLevelNone c1.level = false →
          (CreateStdSyncLogger n2 h2 c2 (CreateStdSyncLogger n1 h1 c1 s).2).2
            = (CreateStdSyncLogger n1 h1 c1 s).2) := by
  refine ⟨createWritersOnce_stdout_preserved s, createWritersOnce_stderr_preserved s,
    ?_, ?_⟩
  · intro k
    induction k with
    | zero => rfl
    | succ n ih =>
      rw [Function.iterate_succ_apply', ih, createWritersOnce_idem]
  · intro n1 n2 h1 h2 c1 c2 hc1
    by_cases hc2 : isLevelNone c2.level = true
    · simp [CreateStdSyncLogger, hc1, hc2]
    · simp [CreateStdSyncLogger, hc1, hc2, createSyncStdLoggers, createWritersOnce_idem]

theorem shared_writers_single_instance_witness :
    ({ onceDone := true, stdoutW := some 5, stderrW := some 6, nextId := 7 }
        : WriterState).stdoutW = some 5
    ∧ (createWritersOnce
        { onceDone := true, stdoutW := some 5, stderrW := some 6, nextId := 7 }).stdoutW
        = some 5
    ∧ (createWritersOnce
        { onceDone := true, stdoutW := some 5, stderrW := some 6, nextId := 7 }).stderrW
        = some 6
    ∧ createWritersOnce^[2]
        ({ onceDone := false, stdoutW := none, stderrW := none, nextId := 0 } : WriterState)
        = createWritersOnce
            { onceDone := false, stdoutW := none, stderrW := none, nextId := 0 }
    ∧ (CreateStdSyncLogger "b" false { format := "json", level := "warn" }
          (CreateStdSyncLogger "a" true { format := "json", level := "info" }
            { onceDone := false, stdoutW := none, stderrW := none, nextId := 0 }).2).2
        = (CreateStdSyncLogger "a" true { format := "json", level := "info" }
            { onceDone := false, stdoutW := none, stderrW := none, nextId := 0 }).2 := by
  have ha := shared_writers_single_instance
    { onceDone := true, stdoutW := some 5, stderrW := some 6, nextId := 7 }
  have hb := shared_writers_single_instance
    { onceDone := false, stdoutW := none, stderrW := none, nextId := 0 }
  exact ⟨rfl, ha.1 5 rfl, ha.2.1 6 rfl, hb.2.2.1 1,
    hb.2.2.2 "a" "b" true false { format := "json", level := "info" }
      { format := "json", level := "warn" } (by decide)⟩

/-- C9: format selection is a no-op: `createLoggerFactory` returns the
same JSON encoder factory for every format string, and two
configurations differing only in the format string yield the same
constructed logger and the same registry state. -/
theorem format_selection_noop (a b : String) (loggerName : String) (hc : Bool)
    (lvl : String) (s : WriterState) :
    createLoggerFactory a = createLoggerFactory b
    ∧ CreateStdSyncLogger loggerName hc { format := a, level := lvl } s
        = CreateStdSyncLogger loggerName hc { format := b, level := lvl } s := by
  exact ⟨rfl, rfl⟩
